import Mathlib

/-!
Verification of the Plant-Sensor-Quantum-Root-Cause-Analysis repository.

The repository declares its core pipeline (QUBO construction, Ising
encoding, QAOA loop, decoding, metrics) as documented functions whose
bodies are unimplemented stubs; those operations are therefore modelled
here from the specification text, as marked on each definition.  The
implemented parts of the repository (configuration loading, the circuit
breaker, the HTTP handler exception flow) are embedded directly from the
source.  Real numbers of the source are embedded as rationals.
-/

namespace PSQ

/-- Mirrors `SensorAbnormal` from `psq/data/schemas.py`: a sensor
identifier together with a severity weight. -/
structure SensorAbnormal where
  sensor_id : String
  severity : ℚ
deriving DecidableEq, Inhabited, Repr

/-- Mirrors `RootCausePattern` from `psq/data/schemas.py` (the fields the
core uses: identifier, description, affected sensors). -/
structure RootCausePattern where
  pattern_id : String
  description : String
  affected_sensors : List String
deriving DecidableEq, Inhabited, Repr

/-- Error taxonomy of the spec (section 7): invalid input and
inconsistent variable index. -/
inductive PsqError where
  | invalidInput
  | invalidIndex
deriving DecidableEq, Repr

/-- Interpretation of a boolean variable value as the rational 0 or 1. -/
def boolToRat (b : Bool) : ℚ := if b then 1 else 0

/-- Severity weight `w i` of sensor `i` (0 outside the sensor range). -/
def sensorWeight (sensors : List SensorAbnormal) (i : ℕ) : ℚ :=
  (sensors.getD i default).severity

/-- Adjacency indicator `A i j`: 1 when pattern `j` lists the identifier
of sensor `i` among its affected sensors, else 0. -/
def coverIndicator (sensors : List SensorAbnormal)
    (patterns : List RootCausePattern) (i j : ℕ) : ℚ :=
  if (patterns.getD j default).affected_sensors.contains
      (sensors.getD i default).sensor_id then 1 else 0

/-- Modelled from the spec: the body of `build_root_cause_qubo`
(`psq/qubo/model.py`) is an unimplemented stub, so the coefficient map is
built from the energy function of spec section 4.1,
`E(z,y) = alpha*sum_i w_i*(1-z_i) + beta*sum_j y_j
          + gamma*sum_i (z_i - sum_j A_ij*y_j)^2`,
expanded into degree-at-most-2 terms over the variable index that places
the sensor variables `z_i` at indices `0..n-1` and the pattern variables
`y_j` at indices `n..n+m-1` (order preserving, per spec section 3).
Entry `(p, p)` is the linear coefficient of variable `p` and entry
`(p, q)` with `p < q` the coefficient of the product term; all other
entries are 0.  The assignment-independent constant `alpha*sum_i w_i`
cannot be represented in a pair-keyed coefficient map and is dropped. -/
def quboCoeff (sensors : List SensorAbnormal) (patterns : List RootCausePattern)
    (alpha beta gamma : ℚ) (p q : ℕ) : ℚ :=
  if p < sensors.length then
    if q = p then
      -alpha * sensorWeight sensors p + gamma
    else if sensors.length ≤ q ∧ q < sensors.length + patterns.length then
      -2 * gamma * coverIndicator sensors patterns p (q - sensors.length)
    else 0
  else if p < sensors.length + patterns.length then
    if q = p then
      beta + gamma * ∑ i ∈ Finset.range sensors.length,
        coverIndicator sensors patterns i (p - sensors.length)
    else if p < q ∧ q < sensors.length + patterns.length then
      2 * gamma * ∑ i ∈ Finset.range sensors.length,
        coverIndicator sensors patterns i (p - sensors.length) *
          coverIndicator sensors patterns i (q - sensors.length)
    else 0
  else 0

/-- Variable names in index order, sensors first then patterns, using the
naming scheme documented in `build_root_cause_qubo`. -/
def varNames (sensors : List SensorAbnormal) (patterns : List RootCausePattern) :
    List String :=
  sensors.map (fun s => "x_" ++ s.sensor_id) ++
    patterns.map (fun p => "y_" ++ p.pattern_id)

/-- Modelled from the spec: `build_root_cause_qubo` (`psq/qubo/model.py`)
is an unimplemented stub; per spec section 4.1 it fails with an
invalid-input error when `sensors` or `patterns` is empty and otherwise
returns the coefficient map together with the variable index. -/
def build_root_cause_qubo (sensors : List SensorAbnormal)
    (patterns : List RootCausePattern) (alpha beta gamma : ℚ) :
    Except PsqError ((ℕ → ℕ → ℚ) × List String) :=
  if sensors.isEmpty || patterns.isEmpty then
    .error .invalidInput
  else
    .ok (quboCoeff sensors patterns alpha beta gamma, varNames sensors patterns)

/-- Modelled from the spec: `compute_qubo_energy` (`psq/qubo/model.py`) is
an unimplemented stub; per spec section 3 the energy of an assignment is
the sum over the coefficient map entries of the coefficient times the two
variable values, the degenerate pair `(p, p)` contributing its
coefficient times the value of variable `p`.  The map built above is
supported on pairs `p ≤ q < N`, so the sum ranges over those pairs. -/
def compute_qubo_energy (Q : ℕ → ℕ → ℚ) (N : ℕ) (a : ℕ → Bool) : ℚ :=
  ∑ p ∈ Finset.range N, ∑ q ∈ Finset.Ico p N,
    Q p q * boolToRat (a p) * boolToRat (a q)

/-- The root-cause energy function of spec section 4.1, evaluated
directly (brute force) on a boolean assignment: sensor variable `i` is
bit `i`, pattern variable `j` is bit `n + j`. -/
def specEnergy (sensors : List SensorAbnormal) (patterns : List RootCausePattern)
    (alpha beta gamma : ℚ) (a : ℕ → Bool) : ℚ :=
  alpha * ∑ i ∈ Finset.range sensors.length,
      sensorWeight sensors i * (1 - boolToRat (a i)) +
  beta * ∑ j ∈ Finset.range patterns.length,
      boolToRat (a (sensors.length + j)) +
  gamma * ∑ i ∈ Finset.range sensors.length,
      (boolToRat (a i) - ∑ j ∈ Finset.range patterns.length,
        coverIndicator sensors patterns i j * boolToRat (a (sensors.length + j))) ^ 2

/-- Block form of the energy of the built coefficient map: linear sensor
terms, linear pattern terms, sensor-pattern cross terms and
pattern-pattern cross terms.  Both `compute_qubo_energy` on the built
map and the spec formula (up to its constant) reduce to this form. -/
def energyNormalForm (sensors : List SensorAbnormal)
    (patterns : List RootCausePattern) (alpha beta gamma : ℚ)
    (a : ℕ → Bool) : ℚ :=
  ∑ i ∈ Finset.range sensors.length,
      (-alpha * sensorWeight sensors i + gamma) * boolToRat (a i) +
  ∑ j ∈ Finset.range patterns.length,
      (beta + gamma * ∑ i ∈ Finset.range sensors.length,
        coverIndicator sensors patterns i j) *
        boolToRat (a (sensors.length + j)) +
  ∑ i ∈ Finset.range sensors.length, ∑ j ∈ Finset.range patterns.length,
      -2 * gamma * coverIndicator sensors patterns i j * boolToRat (a i) *
        boolToRat (a (sensors.length + j)) +
  ∑ j ∈ Finset.range patterns.length, ∑ k ∈ Finset.range j,
      2 * gamma * (∑ i ∈ Finset.range sensors.length,
        coverIndicator sensors patterns i k * coverIndicator sensors patterns i j) *
        boolToRat (a (sensors.length + k)) * boolToRat (a (sensors.length + j))

/-- The spin Hamiltonian of spec section 3: linear coefficients `h`,
pairwise couplings `J` (meaningful for index pairs `p < q`), and a scalar
constant offset. -/
structure SpinHamiltonian where
  h : ℕ → ℚ
  J : ℕ → ℕ → ℚ
  offset : ℚ

/-- Spin value of a spin assignment: `true` is spin `+1`, `false` is spin
`-1`. -/
def spinValue (s : ℕ → Bool) (p : ℕ) : ℚ := if s p then 1 else -1

/-- The boolean assignment obtained from a spin assignment through the
substitution `b_p = (1 + s_p) / 2`: spin `+1` gives bit 1 and spin `-1`
gives bit 0, so on this boolean representation the map is the identity
(see `boolToRat_spin_to_binary`). -/
def spin_to_binary (s : ℕ → Bool) : ℕ → Bool := fun p => s p

/-- Modelled from the spec: `qubo_to_ising_hamiltonian`
(`psq/qubo/encode_ising.py`) is an unimplemented stub; per spec section
4.2 the substitution `b_p = (1 + s_p)/2` is applied to every linear and
pairwise term of the coefficient map and like terms are collected.  The
entry `Q p p * b_p` contributes `Q p p / 2` to `h p` and to the offset;
the entry `Q p q * b_p * b_q` (`p < q`) contributes `Q p q / 4` to
`h p`, `h q`, `J p q` and the offset. -/
def qubo_to_ising_hamiltonian (Q : ℕ → ℕ → ℚ) (N : ℕ) : SpinHamiltonian where
  h := fun p =>
    Q p p / 2 + (∑ q ∈ Finset.Ico (p + 1) N, Q p q) / 4 +
      (∑ q ∈ Finset.range p, Q q p) / 4
  J := fun p q => Q p q / 4
  offset :=
    ∑ p ∈ Finset.range N, Q p p / 2 +
      ∑ p ∈ Finset.range N, ∑ q ∈ Finset.Ico (p + 1) N, Q p q / 4

/-- Energy of a spin assignment under a spin Hamiltonian over `N`
variables: `offset + sum_p h_p s_p + sum_{p<q} J_pq s_p s_q`. -/
def spin_energy (H : SpinHamiltonian) (N : ℕ) (s : ℕ → Bool) : ℚ :=
  H.offset + ∑ p ∈ Finset.range N, H.h p * spinValue s p +
    ∑ p ∈ Finset.range N, ∑ q ∈ Finset.Ico (p + 1) N,
      H.J p q * spinValue s p * spinValue s q

/-- Modelled from the spec: `ising_to_qubo` (`psq/qubo/encode_ising.py`)
is an unimplemented stub; per spec section 4.2 it is the inverse
transform, obtained by substituting `s_p = 2*b_p - 1`: the pair
coefficient is `4*J p q` and the linear coefficient is
`2*h_p - 2*(sum of the couplings involving p)`. -/
def ising_to_qubo (H : SpinHamiltonian) (N : ℕ) (p q : ℕ) : ℚ :=
  if q = p then
    2 * H.h p - 2 * ((∑ r ∈ Finset.Ico (p + 1) N, H.J p r) +
      (∑ r ∈ Finset.range p, H.J r p))
  else
    4 * H.J p q

/-- Mirrors `Solution` from `psq/data/schemas.py`. -/
structure Solution where
  selected_patterns : List String
  covered_sensors : List String
  confidence_score : ℚ
  energy : ℚ
  sample_frequency : ℚ
deriving DecidableEq, Inhabited, Repr

/-- Mirrors `QualityMetrics` from `psq/data/schemas.py`. -/
structure QualityMetrics where
  coverage_rate : ℚ
  average_pattern_count : ℚ
  residual_anomalies : List String
deriving DecidableEq, Inhabited, Repr

/-- Indices of the pattern variables set to 1 in a bit assignment (bit
`n + j` is pattern variable `j`), in increasing index order. -/
def selectedPatternIdx (m n : ℕ) (bits : List Bool) : List ℕ :=
  (List.range m).filter (fun j => bits.getD (n + j) false)

/-- Identifiers of the selected patterns of a bit assignment, in pattern
index order. -/
def selectedPatternIds (patterns : List RootCausePattern) (n : ℕ)
    (bits : List Bool) : List String :=
  (selectedPatternIdx patterns.length n bits).map
    (fun j => (patterns.getD j default).pattern_id)

/-- Sensors of the request covered by the selected patterns of a bit
assignment: the union of the affected-sensor sets of the selected
patterns, intersected with the request sensors (spec section 4.4),
order preserving over the request sensor list. -/
def coveredSensorIds (sensors : List SensorAbnormal)
    (patterns : List RootCausePattern) (bits : List Bool) : List String :=
  (sensors.map (·.sensor_id)).filter (fun sid =>
    (selectedPatternIdx patterns.length sensors.length bits).any
      (fun j => (patterns.getD j default).affected_sensors.contains sid))

/-- Clamp a rational into the interval `[0, 100]`. -/
def clampScore (x : ℚ) : ℚ := max 0 (min 100 x)

/-- Modelled from the spec: the per-assignment solution record built by
`decode_bitstring_solutions` (`psq/qubo/postprocess.py`, unimplemented
stub), per spec section 4.4: selected patterns, covered sensors, the
exact boolean energy recomputed from the original coefficient map,
sample frequency `count / total`, and the confidence formula
`100 * frequency / (1 + (energy - best_energy))` clamped to `[0,100]`. -/
def mkSolution (sensors : List SensorAbnormal) (patterns : List RootCausePattern)
    (Q : ℕ → ℕ → ℚ) (total bestE : ℚ) (entry : List Bool × ℕ) : Solution :=
  { selected_patterns := selectedPatternIds patterns sensors.length entry.1
    covered_sensors := coveredSensorIds sensors patterns entry.1
    confidence_score := clampScore (100 * ((entry.2 : ℚ) / total) /
      (1 + (compute_qubo_energy Q (sensors.length + patterns.length)
        (fun k => entry.1.getD k false) - bestE)))
    energy := compute_qubo_energy Q (sensors.length + patterns.length)
      (fun k => entry.1.getD k false)
    sample_frequency := (entry.2 : ℚ) / total }

/-- The sorted selected-pattern-identifier list of a solution, the
tertiary ranking key of spec section 4.4. -/
def sortedSelected (s : Solution) : List String :=
  s.selected_patterns.mergeSort (fun a b => decide (a ≤ b))

/-- The three-part ranking rule of spec section 4.4 as a boolean
comparison: ascending energy, then descending sample frequency, then
lexicographic order of the sorted selected-pattern-identifier lists. -/
def solutionLE (x y : Solution) : Bool :=
  decide (x.energy < y.energy) ||
    (decide (x.energy = y.energy) &&
      (decide (y.sample_frequency < x.sample_frequency) ||
        (decide (x.sample_frequency = y.sample_frequency) &&
          decide (sortedSelected x ≤ sortedSelected y))))

/-- Equality of the three ranking keys of spec section 4.4. -/
def sameRankKeys (x y : Solution) : Prop :=
  x.energy = y.energy ∧ x.sample_frequency = y.sample_frequency ∧
    sortedSelected x = sortedSelected y

/-- Modelled from the spec: `decode_bitstring_solutions`
(`psq/qubo/postprocess.py`) is an unimplemented stub; per spec section
4.4 every unique bit assignment of the sample distribution is decoded
into a `Solution` (energy recomputed from the original coefficient map,
frequency `count / total draws`) and the list is sorted by the ranking
rule.  The sample distribution is a list of (bit assignment, count)
pairs, one bit per variable in index order. -/
def decode_bitstring_solutions (bitstrings : List (List Bool × ℕ))
    (sensors : List SensorAbnormal) (patterns : List RootCausePattern)
    (Q : ℕ → ℕ → ℚ) : List Solution :=
  let total : ℚ := ((bitstrings.map (·.2)).sum : ℕ)
  let energies := bitstrings.map (fun entry =>
    compute_qubo_energy Q (sensors.length + patterns.length)
      (fun k => entry.1.getD k false))
  let bestE := energies.min?.getD 0
  (bitstrings.map (mkSolution sensors patterns Q total bestE)).mergeSort solutionLE

/-- Modelled from the spec: `compute_coverage_metrics`
(`psq/qubo/postprocess.py`) is an unimplemented stub; per spec section
4.5: coverage rate is `100 * |covered sensors of top solution| /
|all_sensor_ids|` (defined as 0 when `all_sensor_ids` is empty, not a
division error), average pattern count is the mean of the selected
pattern counts (0 for an empty solution list), and the residual
anomalies are `all_sensor_ids` minus the top covered set, order
preserving. -/
def compute_coverage_metrics (solutions : List Solution)
    (all_sensors : List String) : QualityMetrics :=
  match solutions with
  | [] => { coverage_rate := 0, average_pattern_count := 0,
            residual_anomalies := all_sensors }
  | top :: rest =>
    { coverage_rate :=
        if all_sensors.isEmpty then 0
        else 100 * (top.covered_sensors.length : ℚ) / (all_sensors.length : ℚ)
      average_pattern_count :=
        (((top :: rest).map (fun s => (s.selected_patterns.length : ℚ))).sum) /
          ((top :: rest).length : ℚ)
      residual_anomalies :=
        all_sensors.filter (fun sid => !(top.covered_sensors.contains sid)) }

/-- The pluggable sampling evaluator of spec section 6: an expectation
value estimate and a sampling call, both over a parameter vector and the
cost Hamiltonian. -/
structure Evaluator where
  estimate : SpinHamiltonian → List ℚ → ℚ
  sample : SpinHamiltonian → List ℚ → ℕ → List (List Bool × ℕ)

/-- Mirrors `QAOAResult` from `psq/quantum/qaoa_solver.py`, with the
execution metadata reduced to the iteration count and the convergence
flag recorded by spec section 4.3. -/
structure QAOAResult where
  optimized_parameters : List ℚ
  minimum_energy : ℚ
  bitstring_samples : List (List Bool × ℕ)
  iterations : ℕ
  converged : Bool
deriving Repr

/-- The fixed small epsilon used by the convergence test of spec section
4.3 (comparisons never use exact equality). -/
def convergenceEps : ℚ := 1 / 1000000

/-- Modelled from the spec: one step of the variational loop of spec
section 4.3.  Each iteration requests an expectation estimate at the
current parameters, tracks the best energy and parameters found so far,
stops when the estimate moved by less than the convergence epsilon, and
otherwise lets the classical optimizer (`propose`) produce the next
parameter vector; the fuel bounds the remaining iterations.  Returns
(best parameters, best energy, iterations used, converged flag). -/
def optimizeLoop (H : SpinHamiltonian) (ev : Evaluator)
    (propose : List ℚ → ℚ → List ℚ) :
    ℕ → List ℚ → ℚ → ℚ → List ℚ → ℕ → List ℚ × ℚ × ℕ × Bool
  | 0, _, _, bestE, bestP, iter => (bestP, bestE, iter, false)
  | fuel + 1, params, prevE, bestE, bestP, iter =>
    let e := ev.estimate H params
    let bestE' := min bestE e
    let bestP' := if e < bestE then params else bestP
    if |e - prevE| < convergenceEps then (bestP', bestE', iter + 1, true)
    else optimizeLoop H ev propose fuel (propose params e) e bestE' bestP' (iter + 1)

/-- Modelled from the spec: `run_qaoa_root_cause`
(`psq/quantum/qaoa_solver.py`) is an unimplemented stub; per spec
section 4.3 the optimizer keeps `2 * depth` variational parameters,
initialized deterministically to zero, runs the evaluate/propose loop
for at most `maxIter` iterations (stopping early on convergence), and
then performs one final sampling call with `draws` draws at the best
parameters found, returning that sample distribution unchanged. -/
def run_qaoa_root_cause (H : SpinHamiltonian) (depth maxIter draws : ℕ)
    (ev : Evaluator) (propose : List ℚ → ℚ → List ℚ) : QAOAResult :=
  let p0 : List ℚ := List.replicate (2 * depth) 0
  match maxIter with
  | 0 =>
    { optimized_parameters := p0
      minimum_energy := ev.estimate H p0
      bitstring_samples := ev.sample H p0 draws
      iterations := 0
      converged := false }
  | fuel + 1 =>
    let e0 := ev.estimate H p0
    let r := optimizeLoop H ev propose fuel (propose p0 e0) e0 e0 p0 1
    { optimized_parameters := r.1
      minimum_energy := r.2.1
      bitstring_samples := ev.sample H r.1 draws
      iterations := r.2.2.1
      converged := r.2.2.2 }

/-- The Python exception classes relevant to the handler in
`psq/api/fastapi_app.py`: `ValueError`, `RuntimeError`,
`NotImplementedError` (a subclass of `RuntimeError`), and any other
exception. -/
inductive PyExc where
  | valueError
  | runtimeError
  | notImplementedError
  | otherExc
deriving DecidableEq, Repr

/-- Whether `except ValueError` catches the exception. -/
def catchesValueError : PyExc → Bool
  | .valueError => true
  | _ => false

/-- Whether `except RuntimeError` catches the exception;
`NotImplementedError` subclasses `RuntimeError` in Python. -/
def catchesRuntimeError : PyExc → Bool
  | .runtimeError => true
  | .notImplementedError => true
  | _ => false

/-- Mirrors `QuboRootCauseRequest` from `psq/data/schemas.py`. -/
structure QuboRootCauseRequest where
  anomaly_id : String
  plant_id : String
  abnormal_sensors : List SensorAbnormal
  patterns : List RootCausePattern
  alpha : Option ℚ
  beta : Option ℚ
  gamma : Option ℚ
deriving Repr

/-- A minimal stand-in for `QuboRootCauseResult`: the handler under
verification never constructs one, because `diagnose_anomaly` raises
before building a result. -/
structure QuboRootCauseResult where
  anomaly_id : String
  solutions : List Solution
deriving Repr

/-- Embeds `diagnose_anomaly` from `psq/service/orchestrator.py`: after
logging, the body unconditionally executes
`raise NotImplementedError(...)`, so the call never returns a result. -/
def diagnose_anomaly (_req : QuboRootCauseRequest) :
    Except PyExc QuboRootCauseResult :=
  .error .notImplementedError

/-- Mirrors `BackendConfig` from `psq/config.py`. -/
structure BackendConfig where
  backend_type : String
  backend_name : Option String
  use_runtime : Bool
deriving DecidableEq, Repr

/-- Mirrors `QaoaConfig` from `psq/config.py` (Python ints as `ℤ`). -/
structure QaoaConfig where
  depth : ℤ
  optimizer : String
  max_iterations : ℤ
  shots : ℤ
deriving DecidableEq, Repr

/-- Mirrors `QuboConfig` from `psq/config.py`. -/
structure QuboConfig where
  alpha : ℚ
  beta : ℚ
  gamma : ℚ
deriving DecidableEq, Repr

/-- Mirrors `ServiceConfig` from `psq/config.py`. -/
structure ServiceConfig where
  backend : BackendConfig
  qaoa : QaoaConfig
  qubo : QuboConfig
  ibm_quantum_token : Option String
  ibm_quantum_instance : Option String
  log_level : String
  timeout_seconds : ℤ
deriving DecidableEq, Repr

/-- Leading and trailing whitespace removal on a character list,
modelling the whitespace stripping Python string conversions perform. -/
def trimChars (cs : List Char) : List Char :=
  ((cs.dropWhile (·.isWhitespace)).reverse.dropWhile (·.isWhitespace)).reverse

/-- Embeds the Python `str.lower()` call of `load_config` (ASCII case
folding suffices for the values compared there). -/
def pyLower (s : String) : String := String.mk (s.data.map Char.toLower)

/-- Parse a nonempty run of decimal digits, most significant first, with
accumulator; `none` on any non-digit character. -/
def digitsAux : List Char → ℕ → Option ℕ
  | [], acc => some acc
  | c :: cs, acc =>
    if c.isDigit then digitsAux cs (acc * 10 + (c.toNat - '0'.toNat)) else none

/-- Parse a nonempty all-digit character list to a natural number. -/
def parseDigits (cs : List Char) : Option ℕ :=
  if cs.isEmpty then none else digitsAux cs 0

/-- Embeds the Python `int(str)` conversion used by `load_config` for the
decimal forms it receives: optional surrounding whitespace, optional
sign, digits; `none` models the `ValueError` Python raises otherwise. -/
def pyInt (s : String) : Option ℤ :=
  match trimChars s.data with
  | '-' :: cs => (parseDigits cs).map (fun v => -(v : ℤ))
  | '+' :: cs => (parseDigits cs).map (fun v => (v : ℤ))
  | cs => (parseDigits cs).map (fun v => (v : ℤ))

/-- Parse an unsigned decimal literal (digits, optional point, digits)
into a rational. -/
def parseDecimal (cs : List Char) : Option ℚ :=
  let ip := cs.takeWhile (·.isDigit)
  let rest := cs.drop ip.length
  match rest with
  | [] => if ip.isEmpty then none else (digitsAux ip 0).map (fun v => mkRat v 1)
  | '.' :: fp =>
    if fp.all (·.isDigit) && (!ip.isEmpty || !fp.isEmpty) then
      match digitsAux ip 0, digitsAux fp 0 with
      | some a, some b =>
        some (mkRat (a * 10 ^ fp.length + b) (10 ^ fp.length))
      | _, _ => none
    else none
  | _ => none

/-- Embeds the Python `float(str)` conversion used by `load_config` for
the plain decimal forms it receives (exponents and special values are
out of scope); `none` models the `ValueError` Python raises otherwise. -/
def pyFloat (s : String) : Option ℚ :=
  match trimChars s.data with
  | '-' :: cs => (parseDecimal cs).map (fun v => -v)
  | '+' :: cs => parseDecimal cs
  | cs => parseDecimal cs

/-- Embeds `os.getenv(key, dflt)`: the environment is a partial map from
variable names to values. -/
def getenvD (env : String → Option String) (key dflt : String) : String :=
  (env key).getD dflt

/-- Embeds `load_config` from `psq/config.py` over an explicit
environment; `none` models a `ValueError` escaping from one of the
`int(...)` / `float(...)` conversions. -/
def load_config (env : String → Option String) : Option ServiceConfig := do
  let backend_config : BackendConfig :=
    { backend_type := getenvD env "PSQ_BACKEND_TYPE" "simulator"
      backend_name := env "PSQ_BACKEND_NAME"
      use_runtime := pyLower (getenvD env "PSQ_USE_RUNTIME" "false") == "true" }
  let depth ← pyInt (getenvD env "PSQ_QAOA_DEPTH" "2")
  let max_iterations ← pyInt (getenvD env "PSQ_QAOA_MAX_ITER" "100")
  let shots ← pyInt (getenvD env "PSQ_QAOA_SHOTS" "1024")
  let qaoa_config : QaoaConfig :=
    { depth := depth
      optimizer := getenvD env "PSQ_QAOA_OPTIMIZER" "COBYLA"
      max_iterations := max_iterations
      shots := shots }
  let alpha ← pyFloat (getenvD env "PSQ_QUBO_ALPHA" "1.0")
  let beta ← pyFloat (getenvD env "PSQ_QUBO_BETA" "1.0")
  let gamma ← pyFloat (getenvD env "PSQ_QUBO_GAMMA" "1.0")
  let timeout_seconds ← pyInt (getenvD env "PSQ_TIMEOUT_SECONDS" "300")
  pure
    { backend := backend_config
      qaoa := qaoa_config
      qubo := { alpha := alpha, beta := beta, gamma := gamma }
      ibm_quantum_token := env "IBM_QUANTUM_TOKEN"
      ibm_quantum_instance := env "IBM_QUANTUM_INSTANCE"
      log_level := getenvD env "PSQ_LOG_LEVEL" "INFO"
      timeout_seconds := timeout_seconds }

/-- Embeds the `POST /diagnose-plant-anomaly` handler of
`psq/api/fastapi_app.py` as the HTTP status it responds with: the `try`
block loads the configuration (a `ValueError` escaping `int()` there is
caught by the `except ValueError` branch, status 400) and calls
`diagnose_anomaly`; a returned result gives status 200, and a raised
exception is matched by the `except` clauses in order: `ValueError` to
400, `RuntimeError` to 503, any other exception to 500. -/
def diagnose_plant_anomaly (env : String → Option String)
    (req : QuboRootCauseRequest) : ℕ :=
  match load_config env with
  | none => 400
  | some _ =>
    match diagnose_anomaly req with
    | .ok _ => 200
    | .error e =>
      if catchesValueError e then 400
      else if catchesRuntimeError e then 503
      else 500

/-- Embeds the `CircuitBreaker` class of `psq/quantum/qiskit_runtime.py`:
threshold, timeout, failure counter and state string. -/
structure CircuitBreaker where
  failure_threshold : ℕ
  timeout_seconds : ℕ
  failure_count : ℕ
  state : String
deriving DecidableEq, Repr

/-- Embeds `CircuitBreaker.__init__`: counter 0, state closed. -/
def CircuitBreaker.init (failure_threshold timeout_seconds : ℕ) :
    CircuitBreaker :=
  { failure_threshold := failure_threshold
    timeout_seconds := timeout_seconds
    failure_count := 0
    state := "closed" }

/-- Embeds `CircuitBreaker.record_success`: reset the counter, close the
circuit. -/
def CircuitBreaker.record_success (cb : CircuitBreaker) : CircuitBreaker :=
  { cb with failure_count := 0, state := "closed" }

/-- Embeds `CircuitBreaker.record_failure`: increment the counter and
open the circuit when the counter reaches the threshold. -/
def CircuitBreaker.record_failure (cb : CircuitBreaker) : CircuitBreaker :=
  { cb with
    failure_count := cb.failure_count + 1
    state := if cb.failure_threshold ≤ cb.failure_count + 1 then "open"
             else cb.state }

/-- Embeds `CircuitBreaker.is_open`. -/
def CircuitBreaker.is_open (cb : CircuitBreaker) : Bool := cb.state == "open"

/-- A call made on a circuit breaker. -/
inductive CBEvent where
  | success
  | failure
deriving DecidableEq, Repr

/-- Apply one recorded call. -/
def applyEvent (cb : CircuitBreaker) : CBEvent → CircuitBreaker
  | .success => cb.record_success
  | .failure => cb.record_failure

/-- Apply a finite call sequence in order. -/
def applyEvents (cb : CircuitBreaker) (evs : List CBEvent) : CircuitBreaker :=
  evs.foldl applyEvent cb

/-- Number of `record_failure` calls since the most recent
`record_success` call (or since the start, when none occurred), with
accumulator. -/
def failuresSinceSuccessAux (acc : ℕ) : List CBEvent → ℕ
  | [] => acc
  | .success :: evs => failuresSinceSuccessAux 0 evs
  | .failure :: evs => failuresSinceSuccessAux (acc + 1) evs

/-- Number of `record_failure` calls since the most recent
`record_success` call, or since construction when none occurred. -/
def failuresSinceSuccess (evs : List CBEvent) : ℕ :=
  failuresSinceSuccessAux 0 evs

/-- C4: building the QUBO with an empty sensor list or an empty pattern
list fails with the invalid-input error instead of returning a
coefficient map. -/
theorem build_root_cause_qubo_empty_input (sensors : List SensorAbnormal)
    (patterns : List RootCausePattern) (alpha beta gamma : ℚ)
    (h : sensors = [] ∨ patterns = []) :
    build_root_cause_qubo sensors patterns alpha beta gamma =
      .error .invalidInput := by
  rcases h with h | h <;> subst h <;> simp [build_root_cause_qubo]

/-- Witness for C4 at a concrete input: empty sensor list, one pattern. -/
theorem build_root_cause_qubo_empty_input_witness :
    (([] : List SensorAbnormal) = [] ∨
      [RootCausePattern.mk "PUMP_CAVITATION" "cavitation" ["PRESSURE_001"]] =
        ([] : List RootCausePattern)) ∧
    build_root_cause_qubo []
      [RootCausePattern.mk "PUMP_CAVITATION" "cavitation" ["PRESSURE_001"]]
      1 1 1 = .error .invalidInput :=
  ⟨Or.inl rfl,
    build_root_cause_qubo_empty_input _ _ 1 1 1 (Or.inl rfl)⟩

/-- C6: on an empty solution list the metrics are coverage rate 0,
average pattern count 0, and residual equal to the full sensor-id list;
and with an empty sensor-id universe the coverage rate is 0 (no division
error) for every solution list. -/
theorem compute_coverage_metrics_empty (all_ids : List String)
    (sols : List Solution) :
    compute_coverage_metrics [] all_ids =
      { coverage_rate := 0, average_pattern_count := 0,
        residual_anomalies := all_ids } ∧
    (compute_coverage_metrics sols []).coverage_rate = 0 := by
  refine ⟨rfl, ?_⟩
  cases sols with
  | nil => rfl
  | cons top rest => simp [compute_coverage_metrics]

/-- Iteration count of the optimizer loop: at most the fuel plus the
iterations already performed. -/
theorem optimizeLoop_iterations_le (H : SpinHamiltonian) (ev : Evaluator)
    (propose : List ℚ → ℚ → List ℚ) :
    ∀ (fuel : ℕ) (params : List ℚ) (prevE bestE : ℚ) (bestP : List ℚ)
      (iter : ℕ),
      (optimizeLoop H ev propose fuel params prevE bestE bestP iter).2.2.1 ≤
        fuel + iter := by
  intro fuel
  induction fuel with
  | zero => intro params prevE bestE bestP iter; simp [optimizeLoop]
  | succ fuel ih =>
    intro params prevE bestE bestP iter
    rw [optimizeLoop]
    by_cases hc :
        |ev.estimate H params - prevE| < convergenceEps
    · simp only [hc, if_pos]
      omega
    · simp only [hc, if_neg, not_false_iff]
      calc (optimizeLoop H ev propose fuel (propose params (ev.estimate H params))
              (ev.estimate H params)
              (min bestE (ev.estimate H params))
              (if ev.estimate H params < bestE then params else bestP)
              (iter + 1)).2.2.1 ≤ fuel + (iter + 1) := ih _ _ _ _ _
        _ = fuel + 1 + iter := by omega

/-- C7: with a deterministic mock evaluator that always returns the
fixed energy estimate `c` and the fixed sample distribution `D`, the
QAOA run terminates within `maxIter` iterations and returns exactly `D`
as its sample distribution. -/
theorem run_qaoa_root_cause_mock (H : SpinHamiltonian)
    (depth maxIter draws : ℕ) (c : ℚ) (D : List (List Bool × ℕ))
    (propose : List ℚ → ℚ → List ℚ) :
    (run_qaoa_root_cause H depth maxIter draws
        ⟨fun _ _ => c, fun _ _ _ => D⟩ propose).bitstring_samples = D ∧
    (run_qaoa_root_cause H depth maxIter draws
        ⟨fun _ _ => c, fun _ _ _ => D⟩ propose).iterations ≤ maxIter := by
  cases maxIter with
  | zero => exact ⟨rfl, Nat.le_refl 0⟩
  | succ fuel =>
    constructor
    · rfl
    · show (optimizeLoop _ _ _ fuel _ _ _ _ 1).2.2.1 ≤ fuel + 1
      exact optimizeLoop_iterations_le _ _ _ fuel _ _ _ _ 1

/-- C8: whenever the configuration loads, the diagnosis handler responds
with HTTP status 503 for every request: `diagnose_anomaly` raises
`NotImplementedError`, a subclass of `RuntimeError`, the `except
ValueError` branch does not match, and the `except RuntimeError` branch
maps it to 503; status 200 is unreachable. -/
theorem diagnose_plant_anomaly_returns_503 (env : String → Option String)
    (req : QuboRootCauseRequest) (h : (load_config env).isSome = true) :
    diagnose_plant_anomaly env req = 503 := by
  unfold diagnose_plant_anomaly
  obtain ⟨cfg, hcfg⟩ := Option.isSome_iff_exists.mp h
  rw [hcfg]
  rfl

/-- Witness for C8 at a concrete input: default environment, minimal
request. -/
theorem diagnose_plant_anomaly_returns_503_witness :
    (load_config (fun _ => none)).isSome = true ∧
    diagnose_plant_anomaly (fun _ => none)
      (QuboRootCauseRequest.mk "ANOM_1" "PLANT_A" [] [] none none none) =
      503 :=
  ⟨by decide, diagnose_plant_anomaly_returns_503 (fun _ => none) _ (by decide)⟩

/-- The circuit-breaker state after a call sequence is open exactly when
the failure counter, which counts failures since the last success,
reached the threshold. -/
theorem applyEvents_state_open_iff (t : ℕ) (ht : 1 ≤ t) :
    ∀ (evs : List CBEvent) (cb : CircuitBreaker),
      cb.failure_threshold = t → (cb.state = "open" ↔ t ≤ cb.failure_count) →
      ((applyEvents cb evs).state = "open" ↔
        t ≤ failuresSinceSuccessAux cb.failure_count evs) := by
  intro evs
  induction evs with
  | nil => intro cb h1 h2; exact h2
  | cons e evs ih =>
    intro cb h1 h2
    cases e with
    | success =>
      have hstep : applyEvents cb (CBEvent.success :: evs) =
          applyEvents cb.record_success evs := rfl
      rw [hstep]
      have := ih cb.record_success (by simpa [CircuitBreaker.record_success])
        (by simp [CircuitBreaker.record_success]; omega)
      simpa [CircuitBreaker.record_success, failuresSinceSuccessAux] using this
    | failure =>
      have hstep : applyEvents cb (CBEvent.failure :: evs) =
          applyEvents cb.record_failure evs := rfl
      rw [hstep]
      have hinv : cb.record_failure.state = "open" ↔
          t ≤ cb.record_failure.failure_count := by
        simp only [CircuitBreaker.record_failure, h1]
        by_cases hle : t ≤ cb.failure_count + 1
        · rw [if_pos hle]; simp [hle]
        · rw [if_neg hle]
          constructor
          · intro hopen
            exact absurd ((h2.mp hopen).trans (Nat.le_succ _)) hle
          · intro hc; exact absurd hc hle
      have := ih cb.record_failure
        (by simpa [CircuitBreaker.record_failure] using h1) hinv
      simpa [CircuitBreaker.record_failure, failuresSinceSuccessAux] using this

/-- C9: for a breaker built with threshold `t ≥ 1` and any finite call
sequence, `is_open` returns true exactly when at least `t` failures were
recorded since construction or since the most recent success; and
`record_success` always resets the counter to 0 and the state to
closed. -/
theorem circuit_breaker_is_open_iff (t timeout : ℕ) (ht : 1 ≤ t)
    (evs : List CBEvent) :
    ((applyEvents (CircuitBreaker.init t timeout) evs).is_open = true ↔
      t ≤ failuresSinceSuccess evs) ∧
    (∀ cb : CircuitBreaker, cb.record_success.failure_count = 0 ∧
      cb.record_success.state = "closed") := by
  constructor
  · have := applyEvents_state_open_iff t ht evs (CircuitBreaker.init t timeout)
      rfl (by simp [CircuitBreaker.init]; omega)
    simpa [CircuitBreaker.is_open, failuresSinceSuccess, CircuitBreaker.init,
      beq_iff_eq] using this
  · intro cb; exact ⟨rfl, rfl⟩

/-- Witness for C9 at a concrete input: threshold 2, two failures open
the breaker. -/
theorem circuit_breaker_is_open_iff_witness :
    1 ≤ 2 ∧
    (((applyEvents (CircuitBreaker.init 2 60)
        [CBEvent.failure, CBEvent.failure]).is_open = true ↔
      2 ≤ failuresSinceSuccess [CBEvent.failure, CBEvent.failure]) ∧
    (∀ cb : CircuitBreaker, cb.record_success.failure_count = 0 ∧
      cb.record_success.state = "closed")) :=
  ⟨by decide, circuit_breaker_is_open_iff 2 60 (by decide)
    [CBEvent.failure, CBEvent.failure]⟩

/-- C10: when none of the configuration environment variables is set,
`load_config` returns the documented defaults: simulator backend, no
runtime, QAOA depth 2 with COBYLA, 100 iterations, 1024 shots, unit QUBO
weights, INFO logging and a 300 second timeout. -/
theorem load_config_defaults (env : String → Option String)
    (h : ∀ k ∈ ["PSQ_BACKEND_TYPE", "PSQ_BACKEND_NAME", "PSQ_USE_RUNTIME",
      "PSQ_QAOA_DEPTH", "PSQ_QAOA_OPTIMIZER", "PSQ_QAOA_MAX_ITER",
      "PSQ_QAOA_SHOTS", "PSQ_QUBO_ALPHA", "PSQ_QUBO_BETA", "PSQ_QUBO_GAMMA",
      "PSQ_LOG_LEVEL", "PSQ_TIMEOUT_SECONDS", "IBM_QUANTUM_TOKEN",
      "IBM_QUANTUM_INSTANCE"], env k = none) :
    load_config env = some
      { backend := { backend_type := "simulator", backend_name := none,
                     use_runtime := false }
        qaoa := { depth := 2, optimizer := "COBYLA", max_iterations := 100,
                  shots := 1024 }
        qubo := { alpha := 1, beta := 1, gamma := 1 }
        ibm_quantum_token := none
        ibm_quantum_instance := none
        log_level := "INFO"
        timeout_seconds := 300 } := by
  have h1 : env "PSQ_BACKEND_TYPE" = none := h _ (by simp)
  have h2 : env "PSQ_BACKEND_NAME" = none := h _ (by simp)
  have h3 : env "PSQ_USE_RUNTIME" = none := h _ (by simp)
  have h4 : env "PSQ_QAOA_DEPTH" = none := h _ (by simp)
  have h5 : env "PSQ_QAOA_OPTIMIZER" = none := h _ (by simp)
  have h6 : env "PSQ_QAOA_MAX_ITER" = none := h _ (by simp)
  have h7 : env "PSQ_QAOA_SHOTS" = none := h _ (by simp)
  have h8 : env "PSQ_QUBO_ALPHA" = none := h _ (by simp)
  have h9 : env "PSQ_QUBO_BETA" = none := h _ (by simp)
  have h10 : env "PSQ_QUBO_GAMMA" = none := h _ (by simp)
  have h11 : env "PSQ_LOG_LEVEL" = none := h _ (by simp)
  have h12 : env "PSQ_TIMEOUT_SECONDS" = none := h _ (by simp)
  have h13 : env "IBM_QUANTUM_TOKEN" = none := h _ (by simp)
  have h14 : env "IBM_QUANTUM_INSTANCE" = none := h _ (by simp)
  unfold load_config getenvD
  rw [h1, h2, h3, h4, h5, h6, h7, h8, h9, h10, h11, h12, h13, h14]
  decide

/-- Witness for C10 at a concrete input: the empty environment. -/
theorem load_config_defaults_witness :
    (∀ k ∈ ["PSQ_BACKEND_TYPE", "PSQ_BACKEND_NAME", "PSQ_USE_RUNTIME",
      "PSQ_QAOA_DEPTH", "PSQ_QAOA_OPTIMIZER", "PSQ_QAOA_MAX_ITER",
      "PSQ_QAOA_SHOTS", "PSQ_QUBO_ALPHA", "PSQ_QUBO_BETA", "PSQ_QUBO_GAMMA",
      "PSQ_LOG_LEVEL", "PSQ_TIMEOUT_SECONDS", "IBM_QUANTUM_TOKEN",
      "IBM_QUANTUM_INSTANCE"],
      (fun (_ : String) => (none : Option String)) k = none) ∧
    load_config (fun _ => none) = some
      { backend := { backend_type := "simulator", backend_name := none,
                     use_runtime := false }
        qaoa := { depth := 2, optimizer := "COBYLA", max_iterations := 100,
                  shots := 1024 }
        qubo := { alpha := 1, beta := 1, gamma := 1 }
        ibm_quantum_token := none
        ibm_quantum_instance := none
        log_level := "INFO"
        timeout_seconds := 300 } :=
  ⟨fun _ _ => rfl, load_config_defaults (fun _ => none) (fun _ _ => rfl)⟩

/-- A boolean value as a rational is idempotent under multiplication. -/
theorem boolToRat_mul_self (b : Bool) :
    boolToRat b * boolToRat b = boolToRat b := by
  cases b <;> simp [boolToRat]

/-- The 0/1 adjacency indicator is idempotent under multiplication. -/
theorem coverIndicator_mul_self (sensors : List SensorAbnormal)
    (patterns : List RootCausePattern) (i j : ℕ) :
    coverIndicator sensors patterns i j * coverIndicator sensors patterns i j =
      coverIndicator sensors patterns i j := by
  unfold coverIndicator
  split <;> norm_num

/-- The binary-spin substitution of spec section 4.2: the bit obtained
from a spin is `(1 + s) / 2`. -/
theorem boolToRat_spin_to_binary (s : ℕ → Bool) (p : ℕ) :
    boolToRat (spin_to_binary s p) = (1 + spinValue s p) / 2 := by
  cases hsp : s p <;>
    simp [boolToRat, spin_to_binary, spinValue, hsp]

/-- Splitting a sum over `range (n + m)` into the first `n` indices and
the shifted remaining `m` indices. -/
theorem sum_range_add_split (f : ℕ → ℚ) (n m : ℕ) :
    ∑ p ∈ Finset.range (n + m), f p =
      ∑ p ∈ Finset.range n, f p + ∑ j ∈ Finset.range m, f (n + j) := by
  induction m with
  | zero => simp
  | succ m ih =>
    rw [Nat.add_succ, Finset.sum_range_succ, ih,
      Finset.sum_range_succ (fun j => f (n + j))]
    ring

/-- Expansion of the square of a sum into diagonal and ordered pair
terms. -/
theorem sq_sum_expand (c : ℕ → ℚ) (m : ℕ) :
    (∑ j ∈ Finset.range m, c j) ^ 2 =
      ∑ j ∈ Finset.range m, c j ^ 2 +
        2 * ∑ j ∈ Finset.range m, ∑ k ∈ Finset.range j, c j * c k := by
  induction m with
  | zero => simp
  | succ m ih =>
    rw [Finset.sum_range_succ, Finset.sum_range_succ (fun j => c j ^ 2),
      Finset.sum_range_succ (fun j => ∑ k ∈ Finset.range j, c j * c k),
      add_sq, ih, ← Finset.mul_sum]
    ring

/-- Reindexing a triangle sum: summing over pairs `j < k` equals summing
over pairs `k < j` with the roles swapped. -/
theorem triangle_swap (f : ℕ → ℕ → ℚ) (m : ℕ) :
    ∑ j ∈ Finset.range m, ∑ k ∈ Finset.Ico (j + 1) m, f j k =
      ∑ j ∈ Finset.range m, ∑ k ∈ Finset.range j, f k j := by
  induction m with
  | zero => simp
  | succ m ih =>
    rw [Finset.sum_range_succ
        (fun j => ∑ k ∈ Finset.Ico (j + 1) (m + 1), f j k),
      Finset.sum_range_succ (fun j => ∑ k ∈ Finset.range j, f k j)]
    have hlast : ∑ k ∈ Finset.Ico (m + 1) (m + 1), f m k = 0 := by simp
    have hstep : ∀ j ∈ Finset.range m,
        ∑ k ∈ Finset.Ico (j + 1) (m + 1), f j k =
          ∑ k ∈ Finset.Ico (j + 1) m, f j k + f j m := by
      intro j hj
      exact Finset.sum_Ico_succ_top
        (Nat.succ_le_of_lt (Finset.mem_range.mp hj)) _
    rw [Finset.sum_congr rfl hstep, Finset.sum_add_distrib, ih, hlast]
    ring

/-- Shifting the index of a sum over an interval by a common offset. -/
theorem sum_Ico_shift (F : ℕ → ℚ) (n a b : ℕ) :
    ∑ q ∈ Finset.Ico (n + a) (n + b), F q =
      ∑ k ∈ Finset.Ico a b, F (n + k) := by
  rw [Finset.sum_Ico_eq_sum_range, Finset.sum_Ico_eq_sum_range]
  have hcount : n + b - (n + a) = b - a := by omega
  rw [hcount]
  refine Finset.sum_congr rfl ?_
  intro t _
  congr 1
  omega

/-- Splitting the energy sum into diagonal (linear) and strictly upper
(pairwise) parts; the diagonal uses the idempotence of boolean values. -/
theorem compute_qubo_energy_split (Q : ℕ → ℕ → ℚ) (N : ℕ) (a : ℕ → Bool) :
    compute_qubo_energy Q N a =
      ∑ p ∈ Finset.range N, Q p p * boolToRat (a p) +
        ∑ p ∈ Finset.range N, ∑ q ∈ Finset.Ico (p + 1) N,
          Q p q * boolToRat (a p) * boolToRat (a q) := by
  unfold compute_qubo_energy
  rw [← Finset.sum_add_distrib]
  refine Finset.sum_congr rfl ?_
  intro p hp
  rw [Finset.sum_eq_sum_Ico_succ_bot (Finset.mem_range.mp hp)]
  have hdiag : Q p p * boolToRat (a p) * boolToRat (a p) =
      Q p p * boolToRat (a p) := by
    rw [mul_assoc, boolToRat_mul_self]
  rw [hdiag]

/-- Diagonal coefficient of a sensor variable. -/
theorem quboCoeff_diag_sensor (sensors : List SensorAbnormal)
    (patterns : List RootCausePattern) (alpha beta gamma : ℚ) (i : ℕ)
    (hi : i < sensors.length) :
    quboCoeff sensors patterns alpha beta gamma i i =
      -alpha * sensorWeight sensors i + gamma := by
  simp [quboCoeff, hi]

/-- Sensor-pattern cross coefficient. -/
theorem quboCoeff_cross_sensor_pattern (sensors : List SensorAbnormal)
    (patterns : List RootCausePattern) (alpha beta gamma : ℚ) (i j : ℕ)
    (hi : i < sensors.length) (hj : j < patterns.length) :
    quboCoeff sensors patterns alpha beta gamma i (sensors.length + j) =
      -2 * gamma * coverIndicator sensors patterns i j := by
  have hne : ¬(sensors.length + j = i) := by omega
  have hin : sensors.length ≤ sensors.length + j ∧
      sensors.length + j < sensors.length + patterns.length := by omega
  simp only [quboCoeff, if_pos hi, if_neg hne, if_pos hin,
    Nat.add_sub_cancel_left]

/-- Vanishing coefficient between two distinct sensor variables. -/
theorem quboCoeff_sensor_sensor_zero (sensors : List SensorAbnormal)
    (patterns : List RootCausePattern) (alpha beta gamma : ℚ) (i q : ℕ)
    (hi : i < sensors.length) (hiq : i < q) (hq : q < sensors.length) :
    quboCoeff sensors patterns alpha beta gamma i q = 0 := by
  have hne : ¬(q = i) := by omega
  have hnin : ¬(sensors.length ≤ q ∧
      q < sensors.length + patterns.length) := by omega
  simp only [quboCoeff, if_pos hi, if_neg hne, if_neg hnin]

/-- Diagonal coefficient of a pattern variable. -/
theorem quboCoeff_diag_pattern (sensors : List SensorAbnormal)
    (patterns : List RootCausePattern) (alpha beta gamma : ℚ) (j : ℕ)
    (hj : j < patterns.length) :
    quboCoeff sensors patterns alpha beta gamma
        (sensors.length + j) (sensors.length + j) =
      beta + gamma * ∑ i ∈ Finset.range sensors.length,
        coverIndicator sensors patterns i j := by
  have hge : ¬(sensors.length + j < sensors.length) := by omega
  have hlt : sensors.length + j < sensors.length + patterns.length := by omega
  simp only [quboCoeff, if_neg hge, if_pos hlt, Nat.add_sub_cancel_left]
  rw [if_true]

/-- Pattern-pattern cross coefficient. -/
theorem quboCoeff_cross_pattern_pattern (sensors : List SensorAbnormal)
    (patterns : List RootCausePattern) (alpha beta gamma : ℚ) (j k : ℕ)
    (hjk : j < k) (hk : k < patterns.length) :
    quboCoeff sensors patterns alpha beta gamma
        (sensors.length + j) (sensors.length + k) =
      2 * gamma * ∑ i ∈ Finset.range sensors.length,
        coverIndicator sensors patterns i j *
          coverIndicator sensors patterns i k := by
  have hge : ¬(sensors.length + j < sensors.length) := by omega
  have hlt : sensors.length + j < sensors.length + patterns.length := by omega
  have hne : ¬(sensors.length + k = sensors.length + j) := by omega
  have hin : sensors.length + j < sensors.length + k ∧
      sensors.length + k < sensors.length + patterns.length := by omega
  simp only [quboCoeff, if_neg hge, if_pos hlt, if_neg hne, if_pos hin,
    Nat.add_sub_cancel_left]

/-- Moving a common factor into a double sum. -/
theorem sum_mul_inner (n m : ℕ) (g : ℕ → ℚ) (A : ℕ → ℕ → ℚ) (y : ℕ → ℚ) :
    ∑ i ∈ Finset.range n, g i * ∑ j ∈ Finset.range m, A i j * y j =
      ∑ i ∈ Finset.range n, ∑ j ∈ Finset.range m, A i j * g i * y j := by
  refine Finset.sum_congr rfl ?_
  intro i _
  rw [Finset.mul_sum]
  refine Finset.sum_congr rfl ?_
  intro j _
  ring

/-- Collecting column sums of a weighted adjacency. -/
theorem sum_colsum (n m : ℕ) (A : ℕ → ℕ → ℚ) (y : ℕ → ℚ) :
    ∑ i ∈ Finset.range n, ∑ j ∈ Finset.range m, A i j * y j =
      ∑ j ∈ Finset.range m, (∑ i ∈ Finset.range n, A i j) * y j := by
  rw [Finset.sum_comm]
  refine Finset.sum_congr rfl ?_
  intro j _
  rw [Finset.sum_mul]

/-- Collecting the pairwise products of the consistency expansion. -/
theorem sum_pair_collect (n m : ℕ) (A : ℕ → ℕ → ℚ) (y : ℕ → ℚ) :
    ∑ i ∈ Finset.range n, ∑ j ∈ Finset.range m,
        A i j * y j * ∑ k ∈ Finset.range j, A i k * y k =
      ∑ j ∈ Finset.range m, ∑ k ∈ Finset.range j,
        (∑ i ∈ Finset.range n, A i k * A i j) * (y k * y j) := by
  rw [Finset.sum_comm]
  refine Finset.sum_congr rfl ?_
  intro j _
  have h1 : ∀ i ∈ Finset.range n,
      A i j * y j * ∑ k ∈ Finset.range j, A i k * y k =
        ∑ k ∈ Finset.range j, A i k * A i j * (y k * y j) := by
    intro i _
    rw [Finset.mul_sum]
    refine Finset.sum_congr rfl ?_
    intro k _
    ring
  rw [Finset.sum_congr rfl h1, Finset.sum_comm]
  refine Finset.sum_congr rfl ?_
  intro k _
  rw [Finset.sum_mul]

/-- The energy of the built coefficient map in block normal form. -/
theorem compute_energy_quboCoeff (sensors : List SensorAbnormal)
    (patterns : List RootCausePattern) (alpha beta gamma : ℚ) (a : ℕ → Bool) :
    compute_qubo_energy (quboCoeff sensors patterns alpha beta gamma)
      (sensors.length + patterns.length) a =
    energyNormalForm sensors patterns alpha beta gamma a := by
  rw [compute_qubo_energy_split]
  have hdiag :
      ∑ p ∈ Finset.range (sensors.length + patterns.length),
        quboCoeff sensors patterns alpha beta gamma p p * boolToRat (a p) =
      (∑ i ∈ Finset.range sensors.length,
        (-alpha * sensorWeight sensors i + gamma) * boolToRat (a i)) +
      ∑ j ∈ Finset.range patterns.length,
        (beta + gamma * ∑ i ∈ Finset.range sensors.length,
          coverIndicator sensors patterns i j) *
          boolToRat (a (sensors.length + j)) := by
    rw [sum_range_add_split]
    congr 1
    · refine Finset.sum_congr rfl ?_
      intro i hi
      rw [quboCoeff_diag_sensor sensors patterns alpha beta gamma i
        (Finset.mem_range.mp hi)]
    · refine Finset.sum_congr rfl ?_
      intro j hj
      rw [quboCoeff_diag_pattern sensors patterns alpha beta gamma j
        (Finset.mem_range.mp hj)]
  have hcross :
      ∑ p ∈ Finset.range (sensors.length + patterns.length),
        ∑ q ∈ Finset.Ico (p + 1) (sensors.length + patterns.length),
          quboCoeff sensors patterns alpha beta gamma p q * boolToRat (a p) *
            boolToRat (a q) =
      (∑ i ∈ Finset.range sensors.length, ∑ j ∈ Finset.range patterns.length,
        -2 * gamma * coverIndicator sensors patterns i j * boolToRat (a i) *
          boolToRat (a (sensors.length + j))) +
      ∑ j ∈ Finset.range patterns.length, ∑ k ∈ Finset.range j,
        2 * gamma * (∑ i ∈ Finset.range sensors.length,
          coverIndicator sensors patterns i k * coverIndicator sensors patterns i j) *
          boolToRat (a (sensors.length + k)) * boolToRat (a (sensors.length + j)) := by
    rw [sum_range_add_split]
    congr 1
    · refine Finset.sum_congr rfl ?_
      intro i hi
      have hiN : i < sensors.length := Finset.mem_range.mp hi
      have hsplit :
          ∑ q ∈ Finset.Ico (i + 1) (sensors.length + patterns.length),
            quboCoeff sensors patterns alpha beta gamma i q * boolToRat (a i) *
              boolToRat (a q) =
          (∑ q ∈ Finset.Ico (i + 1) sensors.length,
            quboCoeff sensors patterns alpha beta gamma i q * boolToRat (a i) *
              boolToRat (a q)) +
          ∑ q ∈ Finset.Ico sensors.length (sensors.length + patterns.length),
            quboCoeff sensors patterns alpha beta gamma i q * boolToRat (a i) *
              boolToRat (a q) :=
        (Finset.sum_Ico_consecutive _ (by omega) (by omega)).symm
      rw [hsplit]
      have hzero : ∑ q ∈ Finset.Ico (i + 1) sensors.length,
          quboCoeff sensors patterns alpha beta gamma i q * boolToRat (a i) *
            boolToRat (a q) = 0 := by
        refine Finset.sum_eq_zero ?_
        intro q hq
        obtain ⟨hq1, hq2⟩ := Finset.mem_Ico.mp hq
        rw [quboCoeff_sensor_sensor_zero sensors patterns alpha beta gamma i q
          hiN (by omega) hq2]
        ring
      rw [hzero, zero_add]
      have hshift : ∑ q ∈ Finset.Ico sensors.length
            (sensors.length + patterns.length),
            quboCoeff sensors patterns alpha beta gamma i q * boolToRat (a i) *
              boolToRat (a q) =
          ∑ k ∈ Finset.Ico 0 patterns.length,
            quboCoeff sensors patterns alpha beta gamma i (sensors.length + k) *
              boolToRat (a i) * boolToRat (a (sensors.length + k)) :=
        sum_Ico_shift _ sensors.length 0 patterns.length
      rw [hshift, ← Finset.range_eq_Ico]
      refine Finset.sum_congr rfl ?_
      intro j hj
      rw [quboCoeff_cross_sensor_pattern sensors patterns alpha beta gamma i j
        hiN (Finset.mem_range.mp hj)]
    · have hrow : ∀ j ∈ Finset.range patterns.length,
          ∑ q ∈ Finset.Ico (sensors.length + j + 1)
              (sensors.length + patterns.length),
            quboCoeff sensors patterns alpha beta gamma (sensors.length + j) q *
              boolToRat (a (sensors.length + j)) * boolToRat (a q) =
          ∑ k ∈ Finset.Ico (j + 1) patterns.length,
            (2 * gamma * ∑ i ∈ Finset.range sensors.length,
              coverIndicator sensors patterns i j *
                coverIndicator sensors patterns i k) *
              boolToRat (a (sensors.length + j)) *
              boolToRat (a (sensors.length + k)) := by
        intro j hj
        have hshift : ∑ q ∈ Finset.Ico (sensors.length + j + 1)
              (sensors.length + patterns.length),
            quboCoeff sensors patterns alpha beta gamma (sensors.length + j) q *
              boolToRat (a (sensors.length + j)) * boolToRat (a q) =
            ∑ k ∈ Finset.Ico (j + 1) patterns.length,
              quboCoeff sensors patterns alpha beta gamma (sensors.length + j)
                  (sensors.length + k) *
                boolToRat (a (sensors.length + j)) *
                boolToRat (a (sensors.length + k)) :=
          sum_Ico_shift _ sensors.length (j + 1) patterns.length
        rw [hshift]
        refine Finset.sum_congr rfl ?_
        intro k hk
        obtain ⟨hk1, hk2⟩ := Finset.mem_Ico.mp hk
        rw [quboCoeff_cross_pattern_pattern sensors patterns alpha beta gamma j k
          (by omega) hk2]
      rw [Finset.sum_congr rfl hrow]
      exact triangle_swap (fun j k =>
        (2 * gamma * ∑ i ∈ Finset.range sensors.length,
          coverIndicator sensors patterns i j *
            coverIndicator sensors patterns i k) *
          boolToRat (a (sensors.length + j)) *
          boolToRat (a (sensors.length + k))) patterns.length
  rw [hdiag, hcross]
  unfold energyNormalForm
  ring

/-- The spec energy formula equals the block normal form plus the
assignment-independent constant `alpha * sum_i w_i`. -/
theorem specEnergy_eq_normalForm (sensors : List SensorAbnormal)
    (patterns : List RootCausePattern) (alpha beta gamma : ℚ) (a : ℕ → Bool) :
    specEnergy sensors patterns alpha beta gamma a =
      energyNormalForm sensors patterns alpha beta gamma a +
        alpha * ∑ i ∈ Finset.range sensors.length, sensorWeight sensors i := by
  unfold specEnergy energyNormalForm
  have hw : ∀ i ∈ Finset.range sensors.length,
      sensorWeight sensors i * (1 - boolToRat (a i)) =
        sensorWeight sensors i - sensorWeight sensors i * boolToRat (a i) := by
    intro i _
    ring
  have hsq : ∀ i ∈ Finset.range sensors.length,
      (boolToRat (a i) - ∑ j ∈ Finset.range patterns.length,
          coverIndicator sensors patterns i j *
            boolToRat (a (sensors.length + j))) ^ 2 =
        boolToRat (a i) -
          2 * (boolToRat (a i) * ∑ j ∈ Finset.range patterns.length,
            coverIndicator sensors patterns i j *
              boolToRat (a (sensors.length + j))) +
          (∑ j ∈ Finset.range patterns.length,
            coverIndicator sensors patterns i j *
              boolToRat (a (sensors.length + j)) +
           2 * ∑ j ∈ Finset.range patterns.length, ∑ k ∈ Finset.range j,
            (coverIndicator sensors patterns i j *
              boolToRat (a (sensors.length + j))) *
              (coverIndicator sensors patterns i k *
                boolToRat (a (sensors.length + k)))) := by
    intro i _
    have hz : boolToRat (a i) ^ 2 = boolToRat (a i) := by
      rw [sq, boolToRat_mul_self]
    have hS := sq_sum_expand
      (fun j => coverIndicator sensors patterns i j *
        boolToRat (a (sensors.length + j))) patterns.length
    have hA : ∀ j ∈ Finset.range patterns.length,
        (coverIndicator sensors patterns i j *
          boolToRat (a (sensors.length + j))) ^ 2 =
        coverIndicator sensors patterns i j *
          boolToRat (a (sensors.length + j)) := by
      intro j _
      rw [mul_pow, sq, sq, coverIndicator_mul_self, boolToRat_mul_self]
    rw [sub_sq, hz, hS, Finset.sum_congr rfl hA]
    ring
  have hX1 : ∀ i ∈ Finset.range sensors.length,
      (-alpha * sensorWeight sensors i + gamma) * boolToRat (a i) =
        -alpha * (sensorWeight sensors i * boolToRat (a i)) +
          gamma * boolToRat (a i) := by
    intro i _
    ring
  have hX2 : ∀ j ∈ Finset.range patterns.length,
      (beta + gamma * ∑ i ∈ Finset.range sensors.length,
        coverIndicator sensors patterns i j) *
        boolToRat (a (sensors.length + j)) =
      beta * boolToRat (a (sensors.length + j)) +
        gamma * ((∑ i ∈ Finset.range sensors.length,
          coverIndicator sensors patterns i j) *
            boolToRat (a (sensors.length + j))) := by
    intro j _
    ring
  have hX3 : ∀ i ∈ Finset.range sensors.length,
      ∑ j ∈ Finset.range patterns.length,
        -2 * gamma * coverIndicator sensors patterns i j * boolToRat (a i) *
          boolToRat (a (sensors.length + j)) =
      ∑ j ∈ Finset.range patterns.length,
        -(2 * gamma) * (coverIndicator sensors patterns i j * boolToRat (a i) *
          boolToRat (a (sensors.length + j))) := by
    intro i _
    refine Finset.sum_congr rfl ?_
    intro j _
    ring
  have hX4 : ∀ j ∈ Finset.range patterns.length,
      ∑ k ∈ Finset.range j,
        2 * gamma * (∑ i ∈ Finset.range sensors.length,
          coverIndicator sensors patterns i k *
            coverIndicator sensors patterns i j) *
          boolToRat (a (sensors.length + k)) *
          boolToRat (a (sensors.length + j)) =
      ∑ k ∈ Finset.range j,
        (2 * gamma) * ((∑ i ∈ Finset.range sensors.length,
          coverIndicator sensors patterns i k *
            coverIndicator sensors patterns i j) *
          (boolToRat (a (sensors.length + k)) *
            boolToRat (a (sensors.length + j)))) := by
    intro j _
    refine Finset.sum_congr rfl ?_
    intro k _
    ring
  rw [Finset.sum_congr rfl hw, Finset.sum_congr rfl hsq,
    Finset.sum_congr rfl hX1, Finset.sum_congr rfl hX2,
    Finset.sum_congr rfl hX3, Finset.sum_congr rfl hX4]
  simp only [Finset.sum_add_distrib, Finset.sum_sub_distrib, ← Finset.mul_sum]
  rw [sum_mul_inner sensors.length patterns.length
    (fun i => boolToRat (a i))
    (fun i j => coverIndicator sensors patterns i j)
    (fun j => boolToRat (a (sensors.length + j)))]
  rw [sum_colsum sensors.length patterns.length
    (fun i j => coverIndicator sensors patterns i j)
    (fun j => boolToRat (a (sensors.length + j)))]
  rw [sum_pair_collect sensors.length patterns.length
    (fun i j => coverIndicator sensors patterns i j)
    (fun j => boolToRat (a (sensors.length + j)))]
  ring

/-- C1 counterexample: on the instance with one sensor of severity 1,
one pattern covering it, unit weights, and the assignment `z = 1`,
`y = 0`, the energy computed from the coefficient map is 0 while the
formula `E(z,y)` gives 1: the assignment-independent constant
`alpha * sum_i w_i` has no slot in a pair-keyed coefficient map, so the
claimed exact equality fails. -/
theorem compute_energy_ne_specEnergy :
    compute_qubo_energy
        (quboCoeff [SensorAbnormal.mk "PRESSURE_001" 1]
          [RootCausePattern.mk "PUMP_CAVITATION" "cavitation" ["PRESSURE_001"]]
          1 1 1) 2 (fun k => decide (k = 0)) ≠
      specEnergy [SensorAbnormal.mk "PRESSURE_001" 1]
        [RootCausePattern.mk "PUMP_CAVITATION" "cavitation" ["PRESSURE_001"]]
        1 1 1 (fun k => decide (k = 0)) := by
  have h1 : compute_qubo_energy
      (quboCoeff [SensorAbnormal.mk "PRESSURE_001" 1]
        [RootCausePattern.mk "PUMP_CAVITATION" "cavitation" ["PRESSURE_001"]]
        1 1 1) 2 (fun k => decide (k = 0)) =
      energyNormalForm [SensorAbnormal.mk "PRESSURE_001" 1]
        [RootCausePattern.mk "PUMP_CAVITATION" "cavitation" ["PRESSURE_001"]]
        1 1 1 (fun k => decide (k = 0)) :=
    compute_energy_quboCoeff _ _ 1 1 1 _
  have h2 := specEnergy_eq_normalForm [SensorAbnormal.mk "PRESSURE_001" 1]
    [RootCausePattern.mk "PUMP_CAVITATION" "cavitation" ["PRESSURE_001"]]
    1 1 1 (fun k => decide (k = 0))
  rw [h1, h2]
  have hw : (1 : ℚ) * ∑ i ∈ Finset.range
      [SensorAbnormal.mk "PRESSURE_001" 1].length,
      sensorWeight [SensorAbnormal.mk "PRESSURE_001" 1] i = 1 := by
    simp [Finset.sum_range_one, sensorWeight]
  rw [hw]
  intro heq
  exact absurd (self_eq_add_right.mp heq) (by norm_num)

/-- C1 (amended): for non-empty sensors and patterns the build succeeds
with the expanded coefficient map, and evaluating that map with
`compute_qubo_energy` yields, for every boolean assignment, exactly
`E(z,y) - alpha * sum_i w_i`: the formula up to its
assignment-independent constant, which a pair-keyed coefficient map
cannot carry. -/
theorem build_qubo_energy_formula (sensors : List SensorAbnormal)
    (patterns : List RootCausePattern) (alpha beta gamma : ℚ)
    (hs : sensors ≠ []) (hp : patterns ≠ []) :
    build_root_cause_qubo sensors patterns alpha beta gamma =
      .ok (quboCoeff sensors patterns alpha beta gamma,
        varNames sensors patterns) ∧
    ∀ a : ℕ → Bool,
      compute_qubo_energy (quboCoeff sensors patterns alpha beta gamma)
        (sensors.length + patterns.length) a =
      specEnergy sensors patterns alpha beta gamma a -
        alpha * ∑ i ∈ Finset.range sensors.length, sensorWeight sensors i := by
  constructor
  · simp [build_root_cause_qubo, hs, hp]
  · intro a
    rw [compute_energy_quboCoeff, specEnergy_eq_normalForm]
    ring

/-- Witness for C1 at a concrete input: one sensor, one pattern, unit
weights, assignment `z = 1`, `y = 0`. -/
theorem build_qubo_energy_formula_witness :
    ([SensorAbnormal.mk "PRESSURE_001" 1] ≠ ([] : List SensorAbnormal) ∧
      [RootCausePattern.mk "PUMP_CAVITATION" "cavitation" ["PRESSURE_001"]] ≠
        ([] : List RootCausePattern)) ∧
    (build_root_cause_qubo [SensorAbnormal.mk "PRESSURE_001" 1]
        [RootCausePattern.mk "PUMP_CAVITATION" "cavitation" ["PRESSURE_001"]]
        1 1 1 =
      .ok (quboCoeff [SensorAbnormal.mk "PRESSURE_001" 1]
          [RootCausePattern.mk "PUMP_CAVITATION" "cavitation" ["PRESSURE_001"]]
          1 1 1,
        varNames [SensorAbnormal.mk "PRESSURE_001" 1]
          [RootCausePattern.mk "PUMP_CAVITATION" "cavitation" ["PRESSURE_001"]]) ∧
    ∀ a : ℕ → Bool,
      compute_qubo_energy
        (quboCoeff [SensorAbnormal.mk "PRESSURE_001" 1]
          [RootCausePattern.mk "PUMP_CAVITATION" "cavitation" ["PRESSURE_001"]]
          1 1 1) (1 + 1) a =
      specEnergy [SensorAbnormal.mk "PRESSURE_001" 1]
        [RootCausePattern.mk "PUMP_CAVITATION" "cavitation" ["PRESSURE_001"]]
        1 1 1 a -
        1 * ∑ i ∈ Finset.range 1,
          sensorWeight [SensorAbnormal.mk "PRESSURE_001" 1] i) :=
  ⟨⟨by decide, by decide⟩,
    build_qubo_energy_formula
      [SensorAbnormal.mk "PRESSURE_001" 1]
      [RootCausePattern.mk "PUMP_CAVITATION" "cavitation" ["PRESSURE_001"]]
      1 1 1 (by decide) (by decide)⟩

/-- Projection of the linear spin coefficients of the encoder. -/
theorem ising_h_eval (Q : ℕ → ℕ → ℚ) (N p : ℕ) :
    (qubo_to_ising_hamiltonian Q N).h p =
      Q p p / 2 + (∑ q ∈ Finset.Ico (p + 1) N, Q p q) / 4 +
        (∑ q ∈ Finset.range p, Q q p) / 4 := rfl

/-- Projection of the coupling coefficients of the encoder. -/
theorem ising_J_eval (Q : ℕ → ℕ → ℚ) (N p q : ℕ) :
    (qubo_to_ising_hamiltonian Q N).J p q = Q p q / 4 := rfl

/-- Projection of the constant offset of the encoder. -/
theorem ising_offset_eval (Q : ℕ → ℕ → ℚ) (N : ℕ) :
    (qubo_to_ising_hamiltonian Q N).offset =
      ∑ p ∈ Finset.range N, Q p p / 2 +
        ∑ p ∈ Finset.range N, ∑ q ∈ Finset.Ico (p + 1) N, Q p q / 4 := rfl

/-- The binary-to-spin transform is exact: the spin energy of the
encoded Hamiltonian at a spin assignment equals the boolean energy of
the coefficient map at the corresponding boolean assignment, for every
assignment. -/
theorem spin_energy_eq_qubo_energy (Q : ℕ → ℕ → ℚ) (N : ℕ) (s : ℕ → Bool) :
    spin_energy (qubo_to_ising_hamiltonian Q N) N s =
      compute_qubo_energy Q N (spin_to_binary s) := by
  rw [compute_qubo_energy_split]
  unfold spin_energy
  rw [ising_offset_eval]
  have hdiag : ∀ p ∈ Finset.range N,
      Q p p * boolToRat (spin_to_binary s p) =
        Q p p / 2 + Q p p / 2 * spinValue s p := by
    intro p _
    rw [boolToRat_spin_to_binary]
    ring
  have hcross : ∀ p ∈ Finset.range N,
      ∑ q ∈ Finset.Ico (p + 1) N,
        Q p q * boolToRat (spin_to_binary s p) *
          boolToRat (spin_to_binary s q) =
      ∑ q ∈ Finset.Ico (p + 1) N,
        (Q p q / 4 + Q p q / 4 * spinValue s p + Q p q / 4 * spinValue s q +
          Q p q / 4 * spinValue s p * spinValue s q) := by
    intro p _
    refine Finset.sum_congr rfl ?_
    intro q _
    rw [boolToRat_spin_to_binary, boolToRat_spin_to_binary]
    ring
  rw [Finset.sum_congr rfl hdiag, Finset.sum_congr rfl hcross]
  have hh : ∀ p ∈ Finset.range N,
      (qubo_to_ising_hamiltonian Q N).h p * spinValue s p =
        Q p p / 2 * spinValue s p +
          (∑ q ∈ Finset.Ico (p + 1) N, Q p q / 4 * spinValue s p) +
          ∑ q ∈ Finset.range p, Q q p / 4 * spinValue s p := by
    intro p _
    rw [ising_h_eval, ← Finset.sum_mul, ← Finset.sum_mul,
      ← Finset.sum_div, ← Finset.sum_div]
    ring
  have hJ : ∀ p ∈ Finset.range N,
      ∑ q ∈ Finset.Ico (p + 1) N,
        (qubo_to_ising_hamiltonian Q N).J p q * spinValue s p *
          spinValue s q =
      ∑ q ∈ Finset.Ico (p + 1) N,
        Q p q / 4 * spinValue s p * spinValue s q := by
    intro p _
    refine Finset.sum_congr rfl ?_
    intro q _
    rw [ising_J_eval]
  rw [Finset.sum_congr rfl hh, Finset.sum_congr rfl hJ]
  have hswap : ∑ p ∈ Finset.range N, ∑ q ∈ Finset.Ico (p + 1) N,
      Q p q / 4 * spinValue s q =
      ∑ p ∈ Finset.range N, ∑ q ∈ Finset.range p,
        Q q p / 4 * spinValue s p :=
    triangle_swap (fun p q => Q p q / 4 * spinValue s q) N
  simp only [Finset.sum_add_distrib]
  rw [← hswap]
  ring

/-- C2: for every QUBO produced by the builder, a spin assignment
minimizes the encoded spin Hamiltonian exactly when the boolean
assignment obtained through `b = (1 + s)/2` minimizes the boolean energy
of the original coefficient map: the transform is an algebraic identity,
not an approximation. -/
theorem spin_minimizer_iff_qubo_minimizer (sensors : List SensorAbnormal)
    (patterns : List RootCausePattern) (alpha beta gamma : ℚ)
    (hs : sensors ≠ []) (hp : patterns ≠ []) (s : ℕ → Bool) :
    build_root_cause_qubo sensors patterns alpha beta gamma =
      .ok (quboCoeff sensors patterns alpha beta gamma,
        varNames sensors patterns) ∧
    ((∀ t : ℕ → Bool,
        spin_energy (qubo_to_ising_hamiltonian
            (quboCoeff sensors patterns alpha beta gamma)
            (sensors.length + patterns.length))
          (sensors.length + patterns.length) s ≤
        spin_energy (qubo_to_ising_hamiltonian
            (quboCoeff sensors patterns alpha beta gamma)
            (sensors.length + patterns.length))
          (sensors.length + patterns.length) t) ↔
      (∀ b : ℕ → Bool,
        compute_qubo_energy (quboCoeff sensors patterns alpha beta gamma)
          (sensors.length + patterns.length) (spin_to_binary s) ≤
        compute_qubo_energy (quboCoeff sensors patterns alpha beta gamma)
          (sensors.length + patterns.length) b)) := by
  refine ⟨by simp [build_root_cause_qubo, hs, hp], ?_⟩
  constructor
  · intro hmin b
    have hb := hmin b
    rw [spin_energy_eq_qubo_energy, spin_energy_eq_qubo_energy] at hb
    exact hb
  · intro hmin t
    rw [spin_energy_eq_qubo_energy, spin_energy_eq_qubo_energy]
    exact hmin (spin_to_binary t)

/-- Witness for C2 at a concrete input: one sensor, one pattern, unit
weights, all-true spin assignment. -/
theorem spin_minimizer_iff_qubo_minimizer_witness :
    ([SensorAbnormal.mk "PRESSURE_001" 1] ≠ ([] : List SensorAbnormal) ∧
      [RootCausePattern.mk "PUMP_CAVITATION" "cavitation" ["PRESSURE_001"]] ≠
        ([] : List RootCausePattern)) ∧
    (build_root_cause_qubo [SensorAbnormal.mk "PRESSURE_001" 1]
        [RootCausePattern.mk "PUMP_CAVITATION" "cavitation" ["PRESSURE_001"]]
        1 1 1 =
      .ok (quboCoeff [SensorAbnormal.mk "PRESSURE_001" 1]
          [RootCausePattern.mk "PUMP_CAVITATION" "cavitation" ["PRESSURE_001"]]
          1 1 1,
        varNames [SensorAbnormal.mk "PRESSURE_001" 1]
          [RootCausePattern.mk "PUMP_CAVITATION" "cavitation" ["PRESSURE_001"]]) ∧
    ((∀ t : ℕ → Bool,
        spin_energy (qubo_to_ising_hamiltonian
            (quboCoeff [SensorAbnormal.mk "PRESSURE_001" 1]
              [RootCausePattern.mk "PUMP_CAVITATION" "cavitation"
                ["PRESSURE_001"]] 1 1 1) (1 + 1)) (1 + 1)
          (fun _ => true) ≤
        spin_energy (qubo_to_ising_hamiltonian
            (quboCoeff [SensorAbnormal.mk "PRESSURE_001" 1]
              [RootCausePattern.mk "PUMP_CAVITATION" "cavitation"
                ["PRESSURE_001"]] 1 1 1) (1 + 1)) (1 + 1) t) ↔
      (∀ b : ℕ → Bool,
        compute_qubo_energy
          (quboCoeff [SensorAbnormal.mk "PRESSURE_001" 1]
            [RootCausePattern.mk "PUMP_CAVITATION" "cavitation"
              ["PRESSURE_001"]] 1 1 1) (1 + 1)
          (spin_to_binary (fun _ => true)) ≤
        compute_qubo_energy
          (quboCoeff [SensorAbnormal.mk "PRESSURE_001" 1]
            [RootCausePattern.mk "PUMP_CAVITATION" "cavitation"
              ["PRESSURE_001"]] 1 1 1) (1 + 1) b))) :=
  ⟨⟨by decide, by decide⟩,
    spin_minimizer_iff_qubo_minimizer
      [SensorAbnormal.mk "PRESSURE_001" 1]
      [RootCausePattern.mk "PUMP_CAVITATION" "cavitation" ["PRESSURE_001"]]
      1 1 1 (by decide) (by decide) (fun _ => true)⟩

/-- C3: the inverse transform round-trips exactly: converting a
coefficient map to the spin Hamiltonian and back reproduces every
coefficient (exactly, in rational arithmetic). -/
theorem ising_to_qubo_roundtrip (Q : ℕ → ℕ → ℚ) (N p q : ℕ) :
    ising_to_qubo (qubo_to_ising_hamiltonian Q N) N p q = Q p q := by
  unfold ising_to_qubo
  by_cases hqp : q = p
  · subst hqp
    rw [if_pos rfl, ising_h_eval]
    have hrow : ∑ r ∈ Finset.Ico (q + 1) N,
        (qubo_to_ising_hamiltonian Q N).J q r =
        (∑ r ∈ Finset.Ico (q + 1) N, Q q r) / 4 := by
      rw [Finset.sum_div]
      exact Finset.sum_congr rfl (fun r _ => ising_J_eval Q N q r)
    have hcol : ∑ r ∈ Finset.range q,
        (qubo_to_ising_hamiltonian Q N).J r q =
        (∑ r ∈ Finset.range q, Q r q) / 4 := by
      rw [Finset.sum_div]
      exact Finset.sum_congr rfl (fun r _ => ising_J_eval Q N r q)
    rw [hrow, hcol]
    ring
  · rw [if_neg hqp, ising_J_eval]
    ring

/-- The ranking comparison is transitive. -/
theorem solutionLE_trans (x y z : Solution) (hxy : solutionLE x y = true)
    (hyz : solutionLE y z = true) : solutionLE x z = true := by
  simp only [solutionLE, Bool.or_eq_true, Bool.and_eq_true,
    decide_eq_true_eq] at hxy hyz ⊢
  rcases hxy with hlt1 | ⟨he1, hxy2⟩
  · rcases hyz with hlt2 | ⟨he2, _⟩
    · exact Or.inl (hlt1.trans hlt2)
    · exact Or.inl (he2 ▸ hlt1)
  · rcases hyz with hlt2 | ⟨he2, hyz2⟩
    · exact Or.inl (he1 ▸ hlt2)
    · refine Or.inr ⟨he1.trans he2, ?_⟩
      rcases hxy2 with hf1 | ⟨hfe1, hp1⟩
      · rcases hyz2 with hf2 | ⟨hfe2, _⟩
        · exact Or.inl (hf2.trans hf1)
        · exact Or.inl (hfe2 ▸ hf1)
      · rcases hyz2 with hf2 | ⟨hfe2, hp2⟩
        · exact Or.inl (hfe1 ▸ hf2)
        · exact Or.inr ⟨hfe1.trans hfe2, hp1.trans hp2⟩

/-- The ranking comparison is total. -/
theorem solutionLE_total (x y : Solution) :
    (solutionLE x y || solutionLE y x) = true := by
  simp only [solutionLE, Bool.or_eq_true, Bool.and_eq_true,
    decide_eq_true_eq]
  rcases lt_trichotomy x.energy y.energy with he | he | he
  · exact Or.inl (Or.inl he)
  · rcases lt_trichotomy x.sample_frequency y.sample_frequency with hf | hf | hf
    · exact Or.inr (Or.inr ⟨he.symm, Or.inl hf⟩)
    · rcases le_total (sortedSelected x) (sortedSelected y) with hs | hs
      · exact Or.inl (Or.inr ⟨he, Or.inr ⟨hf, hs⟩⟩)
      · exact Or.inr (Or.inr ⟨he.symm, Or.inr ⟨hf.symm, hs⟩⟩)
    · exact Or.inl (Or.inr ⟨he, Or.inl hf⟩)
  · exact Or.inr (Or.inl he)

/-- Two boolean filters of `range m` whose images under a function
injective below `m` are permutations of each other are equal. -/
theorem filter_range_eq_of_map_perm (m : ℕ) (f : ℕ → String)
    (p1 p2 : ℕ → Bool)
    (hinj : ∀ j1 j2, j1 < m → j2 < m → f j1 = f j2 → j1 = j2)
    (hperm : (((List.range m).filter p1).map f).Perm
      (((List.range m).filter p2).map f)) :
    (List.range m).filter p1 = (List.range m).filter p2 := by
  have hdir : ∀ (q1 q2 : ℕ → Bool),
      ((((List.range m).filter q1).map f).Perm
        (((List.range m).filter q2).map f)) →
      ∀ j, j ∈ (List.range m).filter q1 → j ∈ (List.range m).filter q2 := by
    intro q1 q2 hp j hj
    have hjm : j < m := List.mem_range.mp (List.mem_filter.mp hj).1
    have hmem1 : f j ∈ ((List.range m).filter q1).map f :=
      List.mem_map_of_mem f hj
    have hmem2 : f j ∈ ((List.range m).filter q2).map f :=
      hp.mem_iff.mp hmem1
    obtain ⟨j', hj', hfj⟩ := List.mem_map.mp hmem2
    have hj'm : j' < m := List.mem_range.mp (List.mem_filter.mp hj').1
    exact (hinj j' j hj'm hjm hfj) ▸ hj'
  have hmem : ∀ j, j ∈ (List.range m).filter p1 ↔
      j ∈ (List.range m).filter p2 := fun j =>
    ⟨hdir p1 p2 hperm j, hdir p2 p1 hperm.symm j⟩
  have hs1 : List.Sorted (· ≤ ·) ((List.range m).filter p1) :=
    ((List.pairwise_lt_range m).filter p1).imp le_of_lt
  have hs2 : List.Sorted (· ≤ ·) ((List.range m).filter p2) :=
    ((List.pairwise_lt_range m).filter p2).imp le_of_lt
  have hnd1 : ((List.range m).filter p1).Nodup := (List.nodup_range m).filter p1
  have hnd2 : ((List.range m).filter p2).Nodup := (List.nodup_range m).filter p2
  have hp12 : ((List.range m).filter p1).Perm ((List.range m).filter p2) := by
    refine List.perm_of_nodup_nodup_toFinset_eq hnd1 hnd2 ?_
    ext j
    simp only [List.mem_toFinset]
    exact hmem j
  exact List.eq_of_perm_of_sorted hp12 hs1 hs2

/-- When the pattern identifiers are distinct (spec section 3 requires
unique identifiers), the identifier of the pattern at an index
determines the index. -/
theorem patternId_inj (patterns : List RootCausePattern)
    (hnd : (patterns.map (fun p => p.pattern_id)).Nodup) :
    ∀ j1 j2, j1 < patterns.length → j2 < patterns.length →
      (patterns.getD j1 default).pattern_id =
        (patterns.getD j2 default).pattern_id → j1 = j2 := by
  intro j1 j2 h1 h2 heq
  have hfi := List.nodup_iff_injective_get.mp hnd
  have hm1 : j1 < (patterns.map (fun p => p.pattern_id)).length := by simpa
  have hm2 : j2 < (patterns.map (fun p => p.pattern_id)).length := by simpa
  have hg1 : (patterns.map (fun p => p.pattern_id)).get ⟨j1, hm1⟩ =
      (patterns.getD j1 default).pattern_id := by
    rw [List.get_map, List.getD_eq_get patterns default h1]
  have hg2 : (patterns.map (fun p => p.pattern_id)).get ⟨j2, hm2⟩ =
      (patterns.getD j2 default).pattern_id := by
    rw [List.get_map, List.getD_eq_get patterns default h2]
  have hfin : (⟨j1, hm1⟩ : Fin (patterns.map (fun p => p.pattern_id)).length) =
      ⟨j2, hm2⟩ := hfi (by rw [hg1, hg2, heq])
  exact congrArg Fin.val hfin

/-- With distinct pattern identifiers, equal sorted selected-identifier
lists force equal selected index lists. -/
theorem selectedPatternIdx_eq_of_sorted_ids_eq
    (patterns : List RootCausePattern)
    (hnd : (patterns.map (fun p => p.pattern_id)).Nodup) (n : ℕ)
    (bits1 bits2 : List Bool)
    (h : (selectedPatternIds patterns n bits1).mergeSort
        (fun a b => decide (a ≤ b)) =
      (selectedPatternIds patterns n bits2).mergeSort
        (fun a b => decide (a ≤ b))) :
    selectedPatternIdx patterns.length n bits1 =
      selectedPatternIdx patterns.length n bits2 := by
  have p1 := List.mergeSort_perm (selectedPatternIds patterns n bits1)
    (fun a b => decide (a ≤ b))
  have p2 := List.mergeSort_perm (selectedPatternIds patterns n bits2)
    (fun a b => decide (a ≤ b))
  have p2' : ((selectedPatternIds patterns n bits1).mergeSort
      (fun a b => decide (a ≤ b))).Perm
      (selectedPatternIds patterns n bits2) := by
    rw [h]
    exact p2
  have hperm : (selectedPatternIds patterns n bits1).Perm
      (selectedPatternIds patterns n bits2) := p1.symm.trans p2'
  exact filter_range_eq_of_map_perm patterns.length
    (fun j => (patterns.getD j default).pattern_id)
    (fun j => bits1.getD (n + j) false) (fun j => bits2.getD (n + j) false)
    (patternId_inj patterns hnd) hperm

/-- Unfolding equation of the decoder: the mapped solutions sorted by
the ranking comparison. -/
theorem decode_bitstring_solutions_eq (bitstrings : List (List Bool × ℕ))
    (sensors : List SensorAbnormal) (patterns : List RootCausePattern)
    (Q : ℕ → ℕ → ℚ) :
    decode_bitstring_solutions bitstrings sensors patterns Q =
      (bitstrings.map (mkSolution sensors patterns Q
        (((bitstrings.map (fun e => e.2)).sum : ℕ) : ℚ)
        ((bitstrings.map (fun entry =>
          compute_qubo_energy Q (sensors.length + patterns.length)
            (fun k => entry.1.getD k false))).min?.getD 0))).mergeSort
        solutionLE := rfl

/-- C5: the decoded solution list is sorted by the three-part ranking
rule (ascending energy, then descending sample frequency, then
lexicographic order of the sorted selected-pattern-identifier lists),
and the ranking is strict on distinct solutions: two solutions of one
decoded list that agree on all three keys are equal.  The hypothesis is
the data-model invariant that pattern identifiers are unique. -/
theorem decode_bitstring_solutions_ranked
    (bitstrings : List (List Bool × ℕ)) (sensors : List SensorAbnormal)
    (patterns : List RootCausePattern) (Q : ℕ → ℕ → ℚ)
    (hnd : (patterns.map (fun p => p.pattern_id)).Nodup) :
    List.Pairwise (fun x y => solutionLE x y = true)
      (decode_bitstring_solutions bitstrings sensors patterns Q) ∧
    ∀ x ∈ decode_bitstring_solutions bitstrings sensors patterns Q,
      ∀ y ∈ decode_bitstring_solutions bitstrings sensors patterns Q,
        sameRankKeys x y → x = y := by
  rw [decode_bitstring_solutions_eq]
  constructor
  · exact List.sorted_mergeSort solutionLE_trans solutionLE_total _
  · intro x hx y hy hkeys
    obtain ⟨e1, _, hxe⟩ :=
      List.mem_map.mp ((List.mergeSort_perm _ solutionLE).mem_iff.mp hx)
    obtain ⟨e2, _, hye⟩ :=
      List.mem_map.mp ((List.mergeSort_perm _ solutionLE).mem_iff.mp hy)
    subst hxe
    subst hye
    obtain ⟨hE, hF, hS⟩ := hkeys
    have hE' : compute_qubo_energy Q (sensors.length + patterns.length)
        (fun k => e1.1.getD k false) =
      compute_qubo_energy Q (sensors.length + patterns.length)
        (fun k => e2.1.getD k false) := hE
    have hF' : ((e1.2 : ℚ) /
        (((bitstrings.map (fun e => e.2)).sum : ℕ) : ℚ)) =
      ((e2.2 : ℚ) / (((bitstrings.map (fun e => e.2)).sum : ℕ) : ℚ)) := hF
    have hS' : (selectedPatternIds patterns sensors.length e1.1).mergeSort
        (fun a b => decide (a ≤ b)) =
      (selectedPatternIds patterns sensors.length e2.1).mergeSort
        (fun a b => decide (a ≤ b)) := hS
    have hjs := selectedPatternIdx_eq_of_sorted_ids_eq patterns hnd
      sensors.length e1.1 e2.1 hS'
    have hsel : selectedPatternIds patterns sensors.length e1.1 =
        selectedPatternIds patterns sensors.length e2.1 := by
      unfold selectedPatternIds
      rw [hjs]
    have hcov : coveredSensorIds sensors patterns e1.1 =
        coveredSensorIds sensors patterns e2.1 := by
      unfold coveredSensorIds
      rw [hjs]
    unfold mkSolution
    rw [hsel, hcov, hE', hF']

/-- Witness for C5 at a concrete input: one sampled bitstring, one
sensor, one pattern, zero coefficient map. -/
theorem decode_bitstring_solutions_ranked_witness :
    ([RootCausePattern.mk "PUMP_CAVITATION" "cavitation" ["PRESSURE_001"]].map
      (fun p => p.pattern_id)).Nodup ∧
    (List.Pairwise (fun x y => solutionLE x y = true)
      (decode_bitstring_solutions [([true, true], 1)]
        [SensorAbnormal.mk "PRESSURE_001" 1]
        [RootCausePattern.mk "PUMP_CAVITATION" "cavitation" ["PRESSURE_001"]]
        (fun _ _ => 0)) ∧
    ∀ x ∈ decode_bitstring_solutions [([true, true], 1)]
        [SensorAbnormal.mk "PRESSURE_001" 1]
        [RootCausePattern.mk "PUMP_CAVITATION" "cavitation" ["PRESSURE_001"]]
        (fun _ _ => 0),
      ∀ y ∈ decode_bitstring_solutions [([true, true], 1)]
          [SensorAbnormal.mk "PRESSURE_001" 1]
          [RootCausePattern.mk "PUMP_CAVITATION" "cavitation" ["PRESSURE_001"]]
          (fun _ _ => 0),
        sameRankKeys x y → x = y) :=
  ⟨by decide,
    decode_bitstring_solutions_ranked [([true, true], 1)]
      [SensorAbnormal.mk "PRESSURE_001" 1]
      [RootCausePattern.mk "PUMP_CAVITATION" "cavitation" ["PRESSURE_001"]]
      (fun _ _ => 0) (by decide)⟩

end PSQ
